import Mathlib

/-!
Verification development for the `sa-1b-dl` batch downloader.

The repository contains two copies of the transfer engine: the module version
(`src/downloader.rs`, `src/state.rs`, `src/models.rs`) and a self-contained
legacy copy inside `src/main.rs`.  Both are embedded below: the `Downloader`
namespace models `src/downloader.rs` + `src/state.rs`, the `Main` namespace
models the corresponding functions of `src/main.rs`.

Modelling conventions (shallow embedding):
* Machine integers (`u64`, `u32`) are modelled by `Nat`; no arithmetic in the
  source can overflow on the values the claims are about.
* Network and filesystem effects are made explicit: a `NetEnv` value gives the
  outcome of the HEAD and GET requests of one attempt, an `FsState` value gives
  the sizes of the entry's output file and partial (`.part`) file, and every
  run returns an operation trace (`List DlOp`) recording the requests and
  file-system operations it performed, in order.
* `fs::metadata`, `fs::remove_file`, `fs::rename` on files the function itself
  created or checked are modelled as succeeding; request failures, unreadable
  state files and the rename of a missing partial file are modelled explicitly
  because control flow depends on them.
-/

namespace SA1B

/-- Catalog entry, from `src/models.rs` (`LinkEntry`). -/
structure LinkEntry where
  file_name : String
  url : String
deriving Repr, DecidableEq

/-- Per-entry transfer progress, from `src/models.rs` (`DownloadState`). -/
structure DownloadState where
  file_name : String
  downloaded_bytes : Nat
  total_bytes : Option Nat
  completed : Bool
deriving Repr, DecidableEq

/-- `DownloadState::new`, from `src/models.rs`. -/
def DownloadState.new (file_name : String) : DownloadState :=
  { file_name := file_name, downloaded_bytes := 0, total_bytes := none, completed := false }

/-- Sizes of the entry's two on-disk artifacts: the completed output file and
the `.part` staging file. -/
structure FsState where
  outputExists : Bool
  outputSize : Nat
  partExists : Bool
  partSize : Nat
deriving Repr, DecidableEq

/-- Outcome of one GET exchange: HTTP status, the sizes of the body chunks the
stream yields, and whether the stream ends cleanly (`clean = false` means the
next `chunk()` call after the listed chunks returns an error). -/
structure GetResp where
  status : Nat
  chunks : List Nat
  clean : Bool
deriving Repr, DecidableEq

/-- Network environment of one attempt.  `head = none` models a failed HEAD
request; `head = some cl` a successful one whose parsed `content-length` is
`cl` (`cl = none` when the header is missing or unparsable).  `get = none`
models a failed GET send. -/
structure NetEnv where
  head : Option (Option Nat)
  get : Option GetResp
deriving Repr, DecidableEq

/-- The error values `download_file` can produce (the distinct `anyhow!` /
`.context` sites of `src/downloader.rs` and `src/main.rs`). -/
inductive DlError where
  | headFailed
  | getFailed
  | chunkFailed
  | httpStatus (code : Nat)
  | partExceedsTotal (pos total : Nat)
  | sizeMismatch (expected actual : Nat)
  | renameFailed
  | existingMismatch (expected actual : Nat)
deriving Repr, DecidableEq

/-- Result of a transfer, `Result<()>` in the source. -/
inductive DlRes where
  | ok
  | err (e : DlError)
deriving Repr, DecidableEq

/-- `Result::is_ok`. -/
def DlRes.isOk : DlRes → Bool
  | .ok => true
  | .err _ => false

/-- `Result::is_err`. -/
def DlRes.isErr : DlRes → Bool
  | .ok => false
  | .err _ => true

/-- Observable operations a run performs, in order: HTTP requests and
file-system reads/writes (paths are the strings the source builds). -/
inductive DlOp where
  | headReq (url : String)
  | getReq (url : String) (rangeStart : Option Nat)
  | removeFile (path : String)
  | appendFile (path : String) (bytes : Nat)
  | renameFile (src dst : String)
  | readFile (path : String)
  | writeFile (path : String) (content : List DownloadState)
deriving Repr, DecidableEq

/-- Is the operation an access to the durable progress record (the only reads
and writes of whole serialized state in the source are `load_state` and
`save_state`)? -/
def DlOp.isStoreOp : DlOp → Bool
  | .readFile _ => true
  | .writeFile _ _ => true
  | _ => false

/-- The file paths an operation touches (requests touch none). -/
def DlOp.fsPaths : DlOp → List String
  | .removeFile p => [p]
  | .appendFile p _ => [p]
  | .renameFile a b => [a, b]
  | .readFile p => [p]
  | .writeFile p _ => [p]
  | _ => []

/-- `output_dir.join(&entry.file_name)`. -/
def outputPath (dir name : String) : String := dir ++ "/" ++ name

/-- `format!("\x7b\x7d.part", output_path.display())`. -/
def partPath (dir name : String) : String := outputPath dir name ++ ".part"

/-- `output_dir.join(".download_state.json")`, from `src/state.rs`. -/
def statePath (dir : String) : String := dir ++ "/.download_state.json"

/-- Result of one `download_file` invocation: the returned `Result`, the final
in-memory `DownloadState`, the final on-disk state, and the operation trace. -/
structure DfResult where
  res : DlRes
  st : DownloadState
  fs : FsState
  trace : List DlOp
deriving Repr, DecidableEq

/-- Byte count a chunk loop writes and whether it stopped at an empty chunk:
`while let Some(chunk) = response.chunk().await?` with `if n == 0  break `
(`src/downloader.rs` lines 216-232).  Returns `(bytes written, brokeEarly)`;
when `brokeEarly = false` and the list is exhausted, the loop's next pull is
governed by `GetResp.clean`. -/
def consumeChunks : List Nat → Nat × Bool
  | [] => (0, false)
  | n :: rest =>
    if n = 0 then (0, true)
    else
      let w := consumeChunks rest
      (n + w.1, w.2)

/-- `src/downloader.rs` lines 197-256: open the partial file in append mode,
issue the (possibly ranged) GET, stream chunks, rename partial → output, and
validate the final size (expected known and positive ⇒ must match exactly,
otherwise actual must exceed 1024 bytes). -/
def Downloader.fetchStage (dir : String) (entry : LinkEntry) (st1 : DownloadState)
    (fs : FsState) (tr : List DlOp) (total_bytes : Option Nat) (current_pos : Nat)
    (net : NetEnv) : DfResult :=
  let opath := outputPath dir entry.file_name
  let ppath := partPath dir entry.file_name
  let fsA := if fs.partExists then fs else { fs with partExists := true, partSize := 0 }
  let range : Option Nat := if 0 < current_pos then some current_pos else none
  let tr2 := tr ++ [DlOp.getReq entry.url range]
  match net.get with
  | none => { res := .err .getFailed, st := st1, fs := fsA, trace := tr2 }
  | some g =>
    if (¬ (200 ≤ g.status ∧ g.status < 300)) ∧ g.status ≠ 206 then
      { res := .err (.httpStatus g.status), st := st1, fs := fsA, trace := tr2 }
    else
      let w := consumeChunks g.chunks
      let written := w.1
      let broke := w.2
      let fsB := { fsA with partSize := fsA.partSize + written }
      let st2 := if 0 < written then { st1 with downloaded_bytes := current_pos + written } else st1
      let tr3 := tr2 ++ (if 0 < written then [DlOp.appendFile ppath written] else [])
      if broke = false ∧ g.clean = false then
        { res := .err .chunkFailed, st := st2, fs := fsB, trace := tr3 }
      else
        let fsC : FsState :=
          { outputExists := true, outputSize := fsB.partSize, partExists := false, partSize := 0 }
        let actual := fsC.outputSize
        let expected := total_bytes.getD 0
        let valid : Bool := if 0 < expected then decide (actual = expected) else decide (1024 < actual)
        let st3 := { st2 with completed := valid, downloaded_bytes := actual }
        let tr4 := tr3 ++ [DlOp.renameFile ppath opath]
        if valid then { res := .ok, st := st3, fs := fsC, trace := tr4 }
        else { res := .err (.sizeMismatch expected actual), st := st3, fs := fsC, trace := tr4 }

/-- `src/downloader.rs` lines 161-195: compute the resume offset from the
partial file (only when `resume` is on), guard against a partial larger than
the expected total, record `total_bytes` in the state, finish early when the
partial already holds everything, otherwise fetch. -/
def Downloader.resumeStage (dir : String) (resume : Bool) (entry : LinkEntry)
    (st0 : DownloadState) (fs : FsState) (tr : List DlOp) (total_bytes : Option Nat)
    (net : NetEnv) : DfResult :=
  let opath := outputPath dir entry.file_name
  let ppath := partPath dir entry.file_name
  let current_pos := if resume ∧ fs.partExists then fs.partSize else 0
  match total_bytes with
  | some t =>
    if 0 < current_pos ∧ t < current_pos then
      { res := .err (.partExceedsTotal current_pos t), st := st0, fs := fs, trace := tr }
    else
      let st1 := { st0 with total_bytes := some t }
      if t ≤ current_pos then
        if fs.partExists then
          let fs2 : FsState :=
            { outputExists := true, outputSize := fs.partSize, partExists := false, partSize := 0 }
          { res := .ok,
            st := { st1 with completed := true, downloaded_bytes := fs2.outputSize },
            fs := fs2, trace := tr ++ [DlOp.renameFile ppath opath] }
        else
          { res := .err .renameFailed, st := st1, fs := fs, trace := tr }
      else
        Downloader.fetchStage dir entry st1 fs tr (some t) current_pos net
  | none =>
    let st1 := { st0 with total_bytes := none }
    Downloader.fetchStage dir entry st1 fs tr none current_pos net

/-- `Downloader::download_file`, `src/downloader.rs` lines 116-257: HEAD probe,
reconcile against an existing output file (valid ⇒ skip, invalid ⇒ delete and
fall through), then resume decision and fetch. -/
def Downloader.download_file (dir : String) (resume : Bool) (entry : LinkEntry)
    (st0 : DownloadState) (fs : FsState) (net : NetEnv) : DfResult :=
  let opath := outputPath dir entry.file_name
  let tr1 : List DlOp := [DlOp.headReq entry.url]
  match net.head with
  | none => { res := .err .headFailed, st := st0, fs := fs, trace := tr1 }
  | some total_bytes =>
    if fs.outputExists then
      let actual := fs.outputSize
      let valid : Bool :=
        match total_bytes with
        | some expected => decide (actual = expected)
        | none => decide (0 < actual)
      if valid then
        { res := .ok, st := { st0 with completed := true, downloaded_bytes := actual },
          fs := fs, trace := tr1 }
      else
        Downloader.resumeStage dir resume entry st0
          { fs with outputExists := false, outputSize := 0 }
          (tr1 ++ [DlOp.removeFile opath]) total_bytes net
    else
      Downloader.resumeStage dir resume entry st0 fs tr1 total_bytes net

/-- `src/main.rs` lines 282-356 (the legacy copy of the fetch stage): identical
to the module version except for the final validation — when the expected size
is unknown the result is always treated as valid (no 1024-byte threshold), and
`completed` is set to `true` unconditionally. -/
def Main.fetchStage (dir : String) (entry : LinkEntry) (st1 : DownloadState)
    (fs : FsState) (tr : List DlOp) (total_bytes : Option Nat) (current_pos : Nat)
    (net : NetEnv) : DfResult :=
  let opath := outputPath dir entry.file_name
  let ppath := partPath dir entry.file_name
  let fsA := if fs.partExists then fs else { fs with partExists := true, partSize := 0 }
  let range : Option Nat := if 0 < current_pos then some current_pos else none
  let tr2 := tr ++ [DlOp.getReq entry.url range]
  match net.get with
  | none => { res := .err .getFailed, st := st1, fs := fsA, trace := tr2 }
  | some g =>
    if (¬ (200 ≤ g.status ∧ g.status < 300)) ∧ g.status ≠ 206 then
      { res := .err (.httpStatus g.status), st := st1, fs := fsA, trace := tr2 }
    else
      let w := consumeChunks g.chunks
      let written := w.1
      let broke := w.2
      let fsB := { fsA with partSize := fsA.partSize + written }
      let st2 := if 0 < written then { st1 with downloaded_bytes := current_pos + written } else st1
      let tr3 := tr2 ++ (if 0 < written then [DlOp.appendFile ppath written] else [])
      if broke = false ∧ g.clean = false then
        { res := .err .chunkFailed, st := st2, fs := fsB, trace := tr3 }
      else
        let fsC : FsState :=
          { outputExists := true, outputSize := fsB.partSize, partExists := false, partSize := 0 }
        let actual := fsC.outputSize
        let expected := total_bytes.getD 0
        let valid : Bool := if 0 < expected then decide (actual = expected) else true
        let st3 := { st2 with completed := true, downloaded_bytes := actual }
        let tr4 := tr3 ++ [DlOp.renameFile ppath opath]
        if valid then { res := .ok, st := st3, fs := fsC, trace := tr4 }
        else { res := .err (.sizeMismatch expected actual), st := st3, fs := fsC, trace := tr4 }

/-- `src/main.rs` lines 214-280 (the legacy copy of the resume decision): the
early-finish branch here validates the renamed file, sets `completed := true`
unconditionally, and on mismatch deletes the invalid output before erroring. -/
def Main.resumeStage (dir : String) (resume : Bool) (entry : LinkEntry)
    (st0 : DownloadState) (fs : FsState) (tr : List DlOp) (total_bytes : Option Nat)
    (net : NetEnv) : DfResult :=
  let opath := outputPath dir entry.file_name
  let ppath := partPath dir entry.file_name
  let current_pos := if resume ∧ fs.partExists then fs.partSize else 0
  match total_bytes with
  | some t =>
    if 0 < current_pos ∧ t < current_pos then
      { res := .err (.partExceedsTotal current_pos t), st := st0, fs := fs, trace := tr }
    else
      let st1 := { st0 with total_bytes := some t }
      if t ≤ current_pos then
        if fs.partExists then
          let fs2 : FsState :=
            { outputExists := true, outputSize := fs.partSize, partExists := false, partSize := 0 }
          let actual := fs2.outputSize
          let valid : Bool := decide (actual = t)
          let st2 := { st1 with completed := true, downloaded_bytes := actual }
          if valid then
            { res := .ok, st := st2, fs := fs2, trace := tr ++ [DlOp.renameFile ppath opath] }
          else
            { res := .err (.sizeMismatch t actual), st := st2,
              fs := { fs2 with outputExists := false, outputSize := 0 },
              trace := tr ++ [DlOp.renameFile ppath opath, DlOp.removeFile opath] }
        else
          { res := .err .renameFailed, st := st1, fs := fs, trace := tr }
      else
        Main.fetchStage dir entry st1 fs tr (some t) current_pos net
  | none =>
    let st1 := { st0 with total_bytes := none }
    Main.fetchStage dir entry st1 fs tr none current_pos net

/-- `Downloader::download_file`, `src/main.rs` lines 158-357 (the legacy copy):
reconcile differs from the module version — an existing output with unknown
expected size is always valid (even when empty), `completed := true` and
`downloaded_bytes := actual` are recorded before the validity check, and a
mismatching existing output is NOT deleted: the function errors out leaving
the file in place. -/
def Main.download_file (dir : String) (resume : Bool) (entry : LinkEntry)
    (st0 : DownloadState) (fs : FsState) (net : NetEnv) : DfResult :=
  let tr1 : List DlOp := [DlOp.headReq entry.url]
  match net.head with
  | none => { res := .err .headFailed, st := st0, fs := fs, trace := tr1 }
  | some total_bytes =>
    if fs.outputExists then
      let actual := fs.outputSize
      let valid : Bool :=
        match total_bytes with
        | some expected => decide (actual = expected)
        | none => true
      let st1 := { st0 with completed := true, downloaded_bytes := actual }
      if valid then
        { res := .ok, st := st1, fs := fs, trace := tr1 }
      else
        { res := .err (.existingMismatch (total_bytes.getD 0) actual), st := st1,
          fs := fs, trace := tr1 }
    else
      Main.resumeStage dir resume entry st0 fs tr1 total_bytes net

/-- Backoff delay in milliseconds before the retry after a failed attempt,
verbatim from `src/downloader.rs` line 100:
`let delay_ms = 1000 * (1 << (attempt - 1)).min(30000);`
(Rust method-call precedence: `.min(30000)` binds to the shifted value, and
only then is the result multiplied by 1000.) -/
def Downloader.delayMs (attempt : Nat) : Nat := 1000 * min (2 ^ (attempt - 1)) 30000

/-- Result of `download_file_with_retry`: the final `Result`, state, disk
state, the number of the attempt it returned on, the per-attempt results in
order, the backoff delays (ms) slept between attempts, and the concatenated
operation trace of all attempts. -/
structure RetryResult where
  res : DlRes
  st : DownloadState
  fs : FsState
  attempts : Nat
  log : List DlRes
  delays : List Nat
  trace : List DlOp
deriving Repr, DecidableEq

/-- The retry loop body of `Downloader::download_file_with_retry`
(`src/downloader.rs` lines 87-113), entered with the current attempt number
already incremented.  `net` gives each attempt's network environment; the
in-memory state and the on-disk state are threaded from attempt to attempt. -/
def Downloader.retryAux (dir : String) (resume : Bool) (retries : Nat) (entry : LinkEntry)
    (net : Nat → NetEnv) (st : DownloadState) (fs : FsState) (attempt : Nat) : RetryResult :=
  let r := Downloader.download_file dir resume entry st fs (net attempt)
  match r.res with
  | .ok =>
    { res := .ok, st := r.st, fs := r.fs, attempts := attempt,
      log := [.ok], delays := [], trace := r.trace }
  | .err e =>
    if h : attempt < retries then
      let rest := Downloader.retryAux dir resume retries entry net r.st r.fs (attempt + 1)
      { res := rest.res, st := rest.st, fs := rest.fs, attempts := rest.attempts,
        log := .err e :: rest.log, delays := Downloader.delayMs attempt :: rest.delays,
        trace := r.trace ++ rest.trace }
    else
      { res := .err e, st := r.st, fs := r.fs, attempts := attempt,
        log := [.err e], delays := [], trace := r.trace }
termination_by retries - attempt
decreasing_by omega

/-- `Downloader::download_file_with_retry`, `src/downloader.rs` lines 77-114:
`attempt` starts at 0 and is incremented at the top of the loop, so the loop
body first runs with `attempt = 1`. -/
def Downloader.download_file_with_retry (dir : String) (resume : Bool) (retries : Nat)
    (entry : LinkEntry) (net : Nat → NetEnv) (st : DownloadState) (fs : FsState) :
    RetryResult :=
  Downloader.retryAux dir resume retries entry net st fs 1

/-- Load/parse failures of the progress store (`.context` sites of
`StateManager::load_state`). -/
inductive LoadErr where
  | readFailed
deriving Repr, DecidableEq

/-- The durable progress record as found on disk: `none` = the file does not
exist; `some none` = it exists but reading or JSON-parsing it fails;
`some (some sts)` = it exists and parses to `sts`. -/
abbrev DiskRecord := Option (Option (List DownloadState))

/-- `StateManager::load_state`, `src/state.rs` lines 17-26: an absent file
yields the empty list, but a file that exists and cannot be read or parsed is
an error (propagated with `?` by the caller).  The `resume` flag plays no role
here. -/
def StateManager.load_state (disk : DiskRecord) : Except LoadErr (List DownloadState) :=
  match disk with
  | none => .ok []
  | some none => .error .readFailed
  | some (some sts) => .ok sts

/-- `Downloader::load_state`, `src/main.rs` lines 112-121 (the legacy copy):
returns the empty list when the file is absent OR resume is disabled; an
existing unreadable/unparsable file is still an error when resume is on. -/
def Main.load_state (resume : Bool) (disk : DiskRecord) : Except LoadErr (List DownloadState) :=
  match disk with
  | none => .ok []
  | some d =>
    if resume = false then .ok []
    else
      match d with
      | none => .error .readFailed
      | some sts => .ok sts

/-- `StateManager::save_state`, `src/state.rs` lines 28-35: a single direct
`fs::write` of the serialized list to the record path itself (no temporary
file, no rename).  `src/main.rs` lines 123-130 are identical.  The result is
the list of file-system operations performed. -/
def StateManager.save_state (state_file : String) (states : List DownloadState) : List DlOp :=
  [DlOp.writeFile state_file states]

/-- `states.iter().find(|s| s.file_name == entry.file_name)`. -/
def Downloader.findState (states : List DownloadState) (name : String) : Option DownloadState :=
  states.find? (fun s => s.file_name == name)

/-- The merge performed on the shared store: replace the first entry with the
same `file_name`, or push at the end (`src/downloader.rs` lines 334-340,
`src/main.rs` lines 414-419). -/
def Downloader.mergeFirst : List DownloadState → DownloadState → List DownloadState
  | [], st => [st]
  | t :: rest, st =>
    if t.file_name == st.file_name then st :: rest
    else t :: Downloader.mergeFirst rest st

/-- The store update of `src/downloader.rs` lines 331-342: the per-entry final
state is merged ONLY when the transfer's result `is_ok()`. -/
def Downloader.updateStates (states : List DownloadState) (resOk : Bool)
    (st : DownloadState) : List DownloadState :=
  if resOk then Downloader.mergeFirst states st else states

/-- The store update of `src/main.rs` lines 411-420 (the legacy copy): the
final state is merged unconditionally, success or failure. -/
def Main.updateStates (states : List DownloadState) (st : DownloadState) :
    List DownloadState :=
  Downloader.mergeFirst states st

/-- The per-entry work of `Downloader::download_all`'s loop
(`src/downloader.rs` lines 299-351), applied to each entry in order: look up
the entry's prior state in the store (fresh if absent), run the
retry-controller-wrapped transfer, and apply the store update.  The source
runs the transfers concurrently under a semaphore; since entries only ever
touch their own key (catalog names are unique) and merges are serialized by
the mutex, the fold over entries is the sequential shallow embedding of the
store's evolution.  Returns the final store, the per-entry results in catalog
order and the concatenated operation trace. -/
def Downloader.runEntries (dir : String) (resume : Bool) (retries : Nat)
    (net : LinkEntry → Nat → NetEnv) (fss : LinkEntry → FsState) :
    List LinkEntry → List DownloadState → List DownloadState × List DlRes × List DlOp
  | [], states => (states, [], [])
  | e :: rest, states =>
    let st0 := (Downloader.findState states e.file_name).getD (DownloadState.new e.file_name)
    let r := Downloader.download_file_with_retry dir resume retries e (net e) st0 (fss e)
    let states1 := Downloader.updateStates states r.res.isOk r.st
    let p := Downloader.runEntries dir resume retries net fss rest states1
    (p.1, r.res :: p.2.1, r.trace ++ p.2.2)

/-- Result of a whole batch run. -/
structure BatchResult where
  store : List DownloadState
  results : List DlRes
  succeeded : Nat
  failed : Nat
  trace : List DlOp
deriving Repr, DecidableEq

/-- `Downloader::download_all`, `src/downloader.rs` lines 290-379: load the
store once via `StateManager::load_state` (the `resume` flag is NOT consulted
for loading — it only affects each transfer's resume decision), run every
entry, save the full store once at the end, and count successes/failures. -/
def Downloader.download_all (dir : String) (resume : Bool) (retries : Nat)
    (disk : DiskRecord) (entries : List LinkEntry)
    (net : LinkEntry → Nat → NetEnv) (fss : LinkEntry → FsState) :
    Except LoadErr BatchResult :=
  match StateManager.load_state disk with
  | .error e => .error e
  | .ok store0 =>
    let p := Downloader.runEntries dir resume retries net fss entries store0
    .ok { store := p.1
          results := p.2.1
          succeeded := (p.2.1.filter DlRes.isOk).length
          failed := (p.2.1.filter DlRes.isErr).length
          trace := (if disk = none then [] else [DlOp.readFile (statePath dir)])
                   ++ p.2.2 ++ StateManager.save_state (statePath dir) p.1 }

/-- `Downloader::download_single`, `src/downloader.rs` lines 381-396: a fresh
`DownloadState::new` every time, one retry-wrapped transfer, and no contact
with the progress store at all (neither `load_state` nor `save_state` is
called). -/
def Downloader.download_single (dir : String) (resume : Bool) (retries : Nat)
    (entry : LinkEntry) (net : Nat → NetEnv) (fs : FsState) : RetryResult :=
  Downloader.download_file_with_retry dir resume retries entry net
    (DownloadState.new entry.file_name) fs

/-- `Downloader::download_single`, `src/main.rs` lines 462-477 (the legacy
copy): same, but without the retry wrapper. -/
def Main.download_single (dir : String) (resume : Bool) (entry : LinkEntry)
    (net : NetEnv) (fs : FsState) : DfResult :=
  Main.download_file dir resume entry (DownloadState.new entry.file_name) fs net

/-!
## Concurrency scheduler model

`src/downloader.rs` lines 295-344: a `tokio::sync::Semaphore` with
`num_threads` permits is created; the scheduling loop acquires one owned
permit per entry before spawning its task (`acquire_owned().await` line 315),
the task performs its whole retry-wrapped transfer — and hence all of its
HTTP requests — while holding that permit, and the permit is dropped on every
completion path (line 344; on panic the permit is dropped by unwinding).
The transition system below is the step-relation embedding of exactly that
discipline: a task moves `idle → active` only by consuming a permit, and
`active → done` returns it.  A transfer has an in-flight request only while
its task is `active`.
-/

/-- Phase of one entry's task. -/
inductive TaskPhase where
  | idle
  | active
  | done
deriving Repr, DecidableEq

/-- Scheduler state: free semaphore permits plus one phase per entry. -/
structure Sched where
  permits : Nat
  tasks : List TaskPhase
deriving Repr, DecidableEq

/-- Initial scheduler state: `Semaphore::new(numThreads)`, no task started. -/
def Sched.init (numThreads n : Nat) : Sched :=
  { permits := numThreads, tasks := List.replicate n .idle }

/-- Number of tasks currently holding a permit (i.e. transfers that may have
an in-flight request). -/
def Sched.activeCount (s : Sched) : Nat := s.tasks.count .active

/-- One scheduler transition: `start i` models `acquire_owned` succeeding for
entry `i` (consumes a permit), `finish i` models the entry's task completing
(success or failure) and `drop(permit)` returning it. -/
inductive Sched.Step : Sched → Sched → Prop
  | start (s : Sched) (i : Nat) (hp : 0 < s.permits) (hi : s.tasks[i]? = some .idle) :
      Sched.Step s { permits := s.permits - 1, tasks := s.tasks.set i .active }
  | finish (s : Sched) (i : Nat) (hi : s.tasks[i]? = some .active) :
      Sched.Step s { permits := s.permits + 1, tasks := s.tasks.set i .done }

/-- Reachability of scheduler states from the initial one. -/
def Sched.Reachable (numThreads n : Nat) (s : Sched) : Prop :=
  Relation.ReflTransGen Sched.Step (Sched.init numThreads n) s

/-- Auxiliary invariant of the scheduler: free permits plus held permits is
always the configured limit. -/
def Sched.inv (numThreads : Nat) (s : Sched) : Prop :=
  s.permits + s.activeCount = numThreads

/-- An operation a transfer for entry `name` is allowed to perform: never a
progress-store access, and any file it touches is the entry's own output file
or its `.part` staging file. -/
def goodOp (dir name : String) (op : DlOp) : Prop :=
  op.isStoreOp = false ∧
  ∀ p ∈ op.fsPaths, p = outputPath dir name ∨ p = partPath dir name

/-- Is the operation a write of the durable progress record? -/
def DlOp.isSave : DlOp → Bool
  | .writeFile _ _ => true
  | _ => false

/-- Modelled from the spec's words, for comparison with `save_state` (claim
C4): a write-then-replace saves the new record at a temporary path different
from the final one and then renames it over the final path. -/
def isWriteThenReplace (ops : List DlOp) (finalPath : String) : Prop :=
  ∃ tmp content, tmp ≠ finalPath ∧
    ops = [DlOp.writeFile tmp content, DlOp.renameFile tmp finalPath]

/-- Modelled from the spec's words, for comparison with the Finalize
validation (claim C6): the result is valid exactly when the expected total
size is known and positive and the actual size equals it, or the expected
size is unknown and the actual size exceeds the minimal sanity threshold
(1024 bytes in the source). -/
def specFinalizeValid (total_bytes : Option Nat) (actual : Nat) : Prop :=
  (∃ t, total_bytes = some t ∧ 0 < t ∧ actual = t) ∨
  (total_bytes = none ∧ 1024 < actual)

/-- An always-failing network environment: the HEAD request itself fails. -/
def netNone : NetEnv := { head := none, get := none }

/-- Empty disk: neither the output file nor the partial file exists. -/
def fsEmpty : FsState :=
  { outputExists := false, outputSize := 0, partExists := false, partSize := 0 }

/-- The on-disk size of the output file after the fetch stage's rename: the
partial file's previous size (0 when it did not exist) plus the bytes the
chunk loop appended. -/
def fetchActual (fs : FsState) (g : GetResp) : Nat :=
  (if fs.partExists then fs.partSize else 0) + (consumeChunks g.chunks).1

/-- The validity Bool the module Finalize computes (`src/downloader.rs` lines
236-243): `expected = total_bytes.unwrap_or(0)`; if positive, the actual size
must equal it, else the actual size must exceed 1024. -/
def finalizeValidB (tb : Option Nat) (actual : Nat) : Bool :=
  if 0 < tb.getD 0 then decide (actual = tb.getD 0) else decide (1024 < actual)

/-- Bookkeeping facts about the retry loop entered at attempt number
`attempt`: the attempt count it returns on, the per-attempt log, and the
relation between the final result and the log. -/
def RetryOk (retries attempt : Nat) (r : RetryResult) : Prop :=
  attempt ≤ r.attempts ∧
  r.attempts ≤ max retries attempt ∧
  r.log.length + attempt = r.attempts + 1 ∧
  r.log.getLast? = some r.res ∧
  (∀ x ∈ r.log.dropLast, x.isErr = true) ∧
  (r.res.isErr = true → r.attempts = max retries attempt)

/-!
## Theorems
-/

/-- The retry loop satisfies its bookkeeping invariant, by induction on the
remaining retry budget. -/
theorem Downloader.retryAux_spec (dir : String) (resume : Bool) (retries : Nat)
    (entry : LinkEntry) (net : Nat → NetEnv) :
    ∀ fuel attempt st fs, retries ≤ attempt + fuel →
      RetryOk retries attempt (Downloader.retryAux dir resume retries entry net st fs attempt) := by
  intro fuel
  induction fuel with
  | zero =>
    intro attempt st fs hle
    unfold Downloader.retryAux
    dsimp only
    split
    · simp only [RetryOk]
      refine ⟨le_refl _, le_max_right _ _, Nat.add_comm 1 attempt, rfl, by simp,
        by simp [DlRes.isErr]⟩
    · split
      · omega
      · simp only [RetryOk]
        rename_i hnlt
        refine ⟨le_refl _, le_max_right _ _, Nat.add_comm 1 attempt, rfl, by simp, ?_⟩
        intro
        exact (Nat.max_eq_right (by omega)).symm
  | succ k ih =>
    intro attempt st fs hle
    unfold Downloader.retryAux
    dsimp only
    split
    · simp only [RetryOk]
      refine ⟨le_refl _, le_max_right _ _, Nat.add_comm 1 attempt, rfl, by simp,
        by simp [DlRes.isErr]⟩
    · split
      · rename_i e heq hlt
        obtain ⟨h1, h2, h3, h4, h5, h6⟩ :=
          ih (attempt + 1)
            (Downloader.download_file dir resume entry st fs (net attempt)).st
            (Downloader.download_file dir resume entry st fs (net attempt)).fs
            (by omega)
        have hmax1 : max retries (attempt + 1) = retries := Nat.max_eq_left (by omega)
        have hmax2 : max retries attempt = retries := Nat.max_eq_left (by omega)
        rw [hmax1] at h2 h6
        cases hl :
            (Downloader.retryAux dir resume retries entry net
              (Downloader.download_file dir resume entry st fs (net attempt)).st
              (Downloader.download_file dir resume entry st fs (net attempt)).fs
              (attempt + 1)).log with
        | nil => rw [hl] at h3; simp at h3; omega
        | cons b l =>
          rw [hl] at h3 h4 h5
          simp only [RetryOk]
          simp only [List.length_cons] at h3
          refine ⟨by omega, by rw [hmax2]; exact h2, by simp only [List.length_cons]; omega,
            ?_, ?_, ?_⟩
          · rw [List.getLast?_cons_cons]
            exact h4
          · intro x hx
            rw [List.dropLast_cons₂] at hx
            rcases List.mem_cons.mp hx with h | h
            · subst h; rfl
            · exact h5 x h
          · intro hres
            rw [hmax2]
            exact h6 hres
      · rename_i hnlt
        simp only [RetryOk]
        refine ⟨le_refl _, le_max_right _ _, Nat.add_comm 1 attempt, rfl, by simp, ?_⟩
        intro
        exact (Nat.max_eq_right (by omega)).symm

/-- C1 (amended): for every entry and every configured retry limit `R`, the
retry controller invokes the full transfer state machine at most `max R 1`
times (with `R = 0` the source still makes one attempt — see the
counterexample); the returned result is the last attempt's result, every
attempt before the last one failed (so success on any attempt terminates the
loop immediately with no further attempts), and a failing final result means
the loop ran all `max R 1` attempts and surfaced the last failure as the
terminal error for the entry. -/
theorem claim_C1 (dir : String) (resume : Bool) (retries : Nat) (entry : LinkEntry)
    (net : Nat → NetEnv) (st : DownloadState) (fs : FsState) :
    1 ≤ (Downloader.download_file_with_retry dir resume retries entry net st fs).attempts ∧
    (Downloader.download_file_with_retry dir resume retries entry net st fs).attempts ≤
      max retries 1 ∧
    (Downloader.download_file_with_retry dir resume retries entry net st fs).log.length =
      (Downloader.download_file_with_retry dir resume retries entry net st fs).attempts ∧
    (Downloader.download_file_with_retry dir resume retries entry net st fs).log.getLast? =
      some (Downloader.download_file_with_retry dir resume retries entry net st fs).res ∧
    (∀ x ∈ (Downloader.download_file_with_retry dir resume retries entry net st fs).log.dropLast,
      x.isErr = true) ∧
    ((Downloader.download_file_with_retry dir resume retries entry net st fs).res.isErr = true →
      (Downloader.download_file_with_retry dir resume retries entry net st fs).attempts =
        max retries 1) := by
  simp only [Downloader.download_file_with_retry]
  obtain ⟨h1, h2, h3, h4, h5, h6⟩ :=
    Downloader.retryAux_spec dir resume retries entry net retries 1 st fs (by omega)
  exact ⟨h1, h2, by omega, h4, h5, h6⟩

/-- Witness for C1 at a concrete input: retry limit 3, every attempt's HEAD
request failing — the loop runs exactly `max 3 1 = 3` attempts. -/
theorem claim_C1_witness :
    (Downloader.download_file_with_retry "d" true 3 ⟨"f", "u"⟩ (fun _ => netNone)
        (DownloadState.new "f") fsEmpty).attempts = max 3 1 ∧
    1 ≤ (Downloader.download_file_with_retry "d" true 3 ⟨"f", "u"⟩ (fun _ => netNone)
        (DownloadState.new "f") fsEmpty).attempts := by
  have h := claim_C1 "d" true 3 ⟨"f", "u"⟩ (fun _ => netNone) (DownloadState.new "f") fsEmpty
  refine ⟨h.2.2.2.2.2 ?_, h.1⟩
  simp [Downloader.download_file_with_retry, Downloader.retryAux, Downloader.download_file,
    netNone, fsEmpty, DlRes.isErr]

/-- Setting an idle slot to active increments the active count. -/
theorem count_set_start (l : List TaskPhase) : ∀ (i : Nat), l[i]? = some .idle →
    (l.set i .active).count .active = l.count .active + 1 := by
  induction l with
  | nil => intro i h; simp at h
  | cons a rest ih =>
    intro i h
    cases i with
    | zero =>
      simp at h
      subst h
      simp [List.count_cons]
    | succ n =>
      simp only [List.getElem?_cons_succ] at h
      simp only [List.set]
      rw [List.count_cons, List.count_cons, ih n h]
      omega

/-- Setting an active slot to done decrements the active count. -/
theorem count_set_finish (l : List TaskPhase) : ∀ (i : Nat), l[i]? = some .active →
    (l.set i .done).count .active + 1 = l.count .active := by
  induction l with
  | nil => intro i h; simp at h
  | cons a rest ih =>
    intro i h
    cases i with
    | zero =>
      simp at h
      subst h
      simp [List.count_cons]
    | succ n =>
      simp only [List.getElem?_cons_succ] at h
      simp only [List.set]
      rw [List.count_cons, List.count_cons, ← ih n h]
      omega

/-- Every scheduler step preserves the permit-accounting invariant. -/
theorem Sched.step_inv {numThreads : Nat} {s s2 : Sched} (hs : Sched.Step s s2)
    (h : Sched.inv numThreads s) : Sched.inv numThreads s2 := by
  cases hs with
  | start i hp hi =>
    unfold Sched.inv Sched.activeCount at *
    dsimp only
    rw [count_set_start s.tasks i hi]
    omega
  | finish i hi =>
    unfold Sched.inv Sched.activeCount at *
    dsimp only
    have hc := count_set_finish s.tasks i hi
    omega

/-- C9: for every configured limit `T` (`numThreads`), in every state the
batch scheduler can reach, the number of tasks holding a semaphore permit —
and hence the number of transfers that may have an in-flight HTTP request,
since in `download_all` an entry's task performs its whole retry-wrapped
transfer between `acquire_owned` and `drop(permit)` — never exceeds `T`.
The permit is returned by the `finish` transition on every completion path,
success or failure. -/
theorem claim_C9 (numThreads n : Nat) (s : Sched) (h : Sched.Reachable numThreads n s) :
    s.activeCount ≤ numThreads := by
  have hinv : Sched.inv numThreads s := by
    induction h with
    | refl => simp [Sched.inv, Sched.init, Sched.activeCount, List.count_replicate]
    | tail hab hbc ih => exact Sched.step_inv hbc ih
  unfold Sched.inv at hinv
  omega

/-- Witness for C9: with limit 2 and 3 entries, the state after one `start`
transition is reachable and its active count is within the bound. -/
theorem claim_C9_witness :
    ({ permits := 1, tasks := [.active, .idle, .idle] } : Sched).activeCount ≤ 2 := by
  refine claim_C9 2 3 _ (Relation.ReflTransGen.single ?_)
  exact Sched.Step.start (Sched.init 2 3) 0 (by decide) (by decide)

/-- C2: the claim (and the spec, and the source's own comment "exponential
backoff: 1s, 2s, 4s...") say the wait is `min(2^(attempt-1) seconds, 30
seconds)`; the code computes `1000 * (1 << (attempt - 1)).min(30000)`, whose
`.min(30000)` caps the SECONDS count at 30000 before the conversion to
milliseconds, so the sleep after failed attempt 6 is 32000 ms, not the
claimed 30000 ms.  The last conjunct checks the part of the claim the code
does satisfy: every retry re-runs the state machine from the Probe (HEAD)
step.  Failing input: retry limit 7, attempt 6 fails. -/
theorem claim_C2 :
    Downloader.delayMs 6 = 32000 ∧
    1000 * min (2 ^ (6 - 1)) 30 = 30000 ∧
    Downloader.delayMs 6 ≠ 1000 * min (2 ^ (6 - 1)) 30 ∧
    (Downloader.download_file_with_retry "d" true 7 ⟨"f", "u"⟩ (fun _ => netNone)
        (DownloadState.new "f") fsEmpty).delays = [1000, 2000, 4000, 8000, 16000, 32000] ∧
    (Downloader.download_file_with_retry "d" true 2 ⟨"f", "u"⟩ (fun _ => netNone)
        (DownloadState.new "f") fsEmpty).trace = [DlOp.headReq "u", DlOp.headReq "u"] := by
  refine ⟨by norm_num [Downloader.delayMs], by norm_num, by norm_num [Downloader.delayMs], ?_, ?_⟩ <;>
    simp [Downloader.download_file_with_retry, Downloader.retryAux,
      Downloader.download_file, netNone, fsEmpty, Downloader.delayMs]

/-- C1 counterexample: with the configurable retry limit set to `R = 0`, the
retry controller still invokes the state machine once (the attempt counter is
incremented before the first check), i.e. more than `R` times; the HEAD
request of that attempt is really issued. -/
theorem claim_C1_cx :
    (Downloader.download_file_with_retry "d" true 0 ⟨"f", "u"⟩ (fun _ => netNone)
        (DownloadState.new "f") fsEmpty).attempts = 1 ∧
    (Downloader.download_file_with_retry "d" true 0 ⟨"f", "u"⟩ (fun _ => netNone)
        (DownloadState.new "f") fsEmpty).trace = [DlOp.headReq "u"] ∧
    ¬ ((Downloader.download_file_with_retry "d" true 0 ⟨"f", "u"⟩ (fun _ => netNone)
        (DownloadState.new "f") fsEmpty).attempts ≤ 0) := by
  refine ⟨?_, ?_, ?_⟩ <;>
    simp [Downloader.download_file_with_retry, Downloader.retryAux,
      Downloader.download_file, netNone, fsEmpty]

/-- C3 counterexample: a durable record that exists but cannot be read or
parsed makes `StateManager::load_state` return an error (propagated with `?`
by `download_all`, hence fatal), not the claimed empty mapping; and with
resume disabled the module batch runner still loads whatever is on disk
(entries `[]`, resume `false`, a one-entry record: the final store is that
record's content, not empty). -/
theorem claim_C3_cx :
    StateManager.load_state (some none) = .error .readFailed ∧
    StateManager.load_state (some none) ≠ .ok [] ∧
    (Downloader.download_all "d" false 3 (some (some [DownloadState.new "a"])) []
        (fun _ _ => netNone) (fun _ => fsEmpty)) =
      .ok { store := [DownloadState.new "a"], results := [], succeeded := 0, failed := 0,
            trace := [DlOp.readFile "d/.download_state.json",
                      DlOp.writeFile "d/.download_state.json" [DownloadState.new "a"]] } := by
  refine ⟨rfl, by simp [StateManager.load_state], ?_⟩
  simp [Downloader.download_all, StateManager.load_state, Downloader.runEntries,
    StateManager.save_state, statePath]

/-- C4 counterexample: `save_state` performs one direct `fs::write` to the
record path itself — it is not the write-then-replace pattern the claim
describes (no temporary path, no rename). -/
theorem claim_C4_cx :
    ¬ isWriteThenReplace (StateManager.save_state "d/.download_state.json" [])
        "d/.download_state.json" := by
  rintro ⟨tmp, content, hne, h⟩
  simp [StateManager.save_state] at h

/-- C5 counterexample: in the legacy `main.rs` state machine, an existing
output file of size 5 with probed expected size 10 is NOT deleted and the run
does NOT proceed to a fresh transfer: the function returns an error having
issued only the HEAD request, leaves the file in place, and even records the
entry as `completed`. -/
theorem claim_C5_cx :
    (Main.download_file "d" true ⟨"f", "u"⟩ (DownloadState.new "f")
        { outputExists := true, outputSize := 5, partExists := false, partSize := 0 }
        { head := some (some 10), get := none }) =
      { res := .err (.existingMismatch 10 5),
        st := { file_name := "f", downloaded_bytes := 5, total_bytes := none, completed := true },
        fs := { outputExists := true, outputSize := 5, partExists := false, partSize := 0 },
        trace := [DlOp.headReq "u"] } := by
  decide

/-- C6 counterexample: in the legacy `main.rs` Finalize, a transfer that
renames a 5-byte file against an expected size of 10 is reported as a failure
(size mismatch) yet `completed` is recorded as `true` — so `completed = true`
does not hold "exactly when" the result is valid. -/
theorem claim_C6_cx :
    (Main.download_file "d" true ⟨"f", "u"⟩ (DownloadState.new "f") fsEmpty
        { head := some (some 10),
          get := some { status := 200, chunks := [5], clean := true } }).res =
      .err (.sizeMismatch 10 5) ∧
    (Main.download_file "d" true ⟨"f", "u"⟩ (DownloadState.new "f") fsEmpty
        { head := some (some 10),
          get := some { status := 200, chunks := [5], clean := true } }).st.completed = true := by
  decide

/-- C7 counterexample: a partial file strictly larger than the known expected
total (20 > 10) does NOT cause a failure when a valid completed output file
is also present — the attempt returns success at the Reconcile step without
ever reaching the partial-exceeds-total guard. -/
theorem claim_C7_cx :
    (Downloader.download_file "d" true ⟨"f", "u"⟩ (DownloadState.new "f")
        { outputExists := true, outputSize := 10, partExists := true, partSize := 20 }
        { head := some (some 10), get := none }).res = .ok := by
  decide

/-- C8 counterexample: in the module batch runner, an entry whose transfer
fails (HEAD fails on its only attempt) is NOT written to the shared store:
starting from an empty store, the final store is still empty even though the
entry finished (with a failure). -/
theorem claim_C8_cx :
    (Downloader.runEntries "d" true 1 (fun _ _ => netNone) (fun _ => fsEmpty)
        [⟨"f", "u"⟩] []).1 = [] ∧
    (Downloader.runEntries "d" true 1 (fun _ _ => netNone) (fun _ => fsEmpty)
        [⟨"f", "u"⟩] []).2.1 = [.err .headFailed] := by
  refine ⟨?_, ?_⟩ <;>
    simp [Downloader.runEntries, Downloader.download_file_with_retry, Downloader.retryAux,
      Downloader.download_file, Downloader.updateStates, Downloader.findState,
      netNone, fsEmpty, DlRes.isOk]


set_option maxHeartbeats 1000000

/-- Every operation the module fetch stage adds to the trace is a request or
an access to the entry's own output/partial files. -/
theorem Downloader.fetchStage_ops (dir : String) (e : LinkEntry) (st1 : DownloadState)
    (fs : FsState) (tr : List DlOp) (tb : Option Nat) (cpos : Nat) (net : NetEnv) :
    ∀ op ∈ (Downloader.fetchStage dir e st1 fs tr tb cpos net).trace,
      op ∈ tr ∨ goodOp dir e.file_name op := by
  intro op hop
  unfold Downloader.fetchStage at hop
  dsimp only at hop
  repeat' split at hop
  all_goals simp only [List.mem_append, List.mem_singleton, List.mem_cons,
    List.not_mem_nil, or_false, false_or] at hop
  all_goals (
    repeat (first
      | exact Or.inl hop
      | (right; subst hop; simp [goodOp, DlOp.isStoreOp, DlOp.fsPaths])
      | (rcases hop with hop | hop)))

/-- Every operation the legacy fetch stage adds to the trace is a request or
an access to the entry's own output/partial files. -/
theorem Main.legacy_fetchStage_ops (dir : String) (e : LinkEntry) (st1 : DownloadState)
    (fs : FsState) (tr : List DlOp) (tb : Option Nat) (cpos : Nat) (net : NetEnv) :
    ∀ op ∈ (Main.fetchStage dir e st1 fs tr tb cpos net).trace,
      op ∈ tr ∨ goodOp dir e.file_name op := by
  intro op hop
  unfold Main.fetchStage at hop
  dsimp only at hop
  repeat' split at hop
  all_goals simp only [List.mem_append, List.mem_singleton, List.mem_cons,
    List.not_mem_nil, or_false, false_or] at hop
  all_goals (
    repeat (first
      | exact Or.inl hop
      | (right; subst hop; simp [goodOp, DlOp.isStoreOp, DlOp.fsPaths])
      | (rcases hop with hop | hop)))

/-- Every operation the module resume stage adds to the trace is a request or
an access to the entry's own output/partial files. -/
theorem Downloader.resumeStage_ops (dir : String) (resume : Bool) (e : LinkEntry)
    (st0 : DownloadState) (fs : FsState) (tr : List DlOp) (tb : Option Nat) (net : NetEnv) :
    ∀ op ∈ (Downloader.resumeStage dir resume e st0 fs tr tb net).trace,
      op ∈ tr ∨ goodOp dir e.file_name op := by
  intro op hop
  unfold Downloader.resumeStage at hop
  dsimp only at hop
  repeat' split at hop
  all_goals try exact Downloader.fetchStage_ops _ _ _ _ _ _ _ _ op hop
  all_goals simp only [List.mem_append, List.mem_singleton, List.mem_cons,
    List.not_mem_nil, or_false, false_or] at hop
  all_goals (
    repeat (first
      | exact Or.inl hop
      | (right; subst hop; simp [goodOp, DlOp.isStoreOp, DlOp.fsPaths])
      | (rcases hop with hop | hop)))

/-- Every operation the legacy resume stage adds to the trace is a request or
an access to the entry's own output/partial files. -/
theorem Main.legacy_resumeStage_ops (dir : String) (resume : Bool) (e : LinkEntry)
    (st0 : DownloadState) (fs : FsState) (tr : List DlOp) (tb : Option Nat) (net : NetEnv) :
    ∀ op ∈ (Main.resumeStage dir resume e st0 fs tr tb net).trace,
      op ∈ tr ∨ goodOp dir e.file_name op := by
  intro op hop
  unfold Main.resumeStage at hop
  dsimp only at hop
  repeat' split at hop
  all_goals try exact Main.legacy_fetchStage_ops _ _ _ _ _ _ _ _ op hop
  all_goals simp only [List.mem_append, List.mem_singleton, List.mem_cons,
    List.not_mem_nil, or_false, false_or] at hop
  all_goals (
    repeat (first
      | exact Or.inl hop
      | (right; subst hop; simp [goodOp, DlOp.isStoreOp, DlOp.fsPaths])
      | (rcases hop with hop | hop)))

/-- Every operation in a module `download_file` trace is a request or an
access to the entry's own output/partial files — in particular never a
progress-store access. -/
theorem Downloader.download_file_ops (dir : String) (resume : Bool) (e : LinkEntry)
    (st0 : DownloadState) (fs : FsState) (net : NetEnv) :
    ∀ op ∈ (Downloader.download_file dir resume e st0 fs net).trace,
      goodOp dir e.file_name op := by
  intro op hop
  unfold Downloader.download_file at hop
  dsimp only at hop
  repeat' split at hop
  all_goals try (
    simp only [List.mem_singleton, List.mem_cons, List.not_mem_nil, or_false] at hop
    subst hop
    simp [goodOp, DlOp.isStoreOp, DlOp.fsPaths])
  all_goals (
    rcases Downloader.resumeStage_ops _ _ _ _ _ _ _ _ op hop with h | h
    · simp only [List.mem_append, List.mem_singleton, List.mem_cons,
        List.not_mem_nil, or_false] at h
      repeat' rcases h with h | h
      all_goals simp_all [goodOp, DlOp.isStoreOp, DlOp.fsPaths]
    · exact h)

/-- Every operation in a legacy `download_file` trace is a request or an
access to the entry's own output/partial files — in particular never a
progress-store access. -/
theorem Main.legacy_download_file_ops (dir : String) (resume : Bool) (e : LinkEntry)
    (st0 : DownloadState) (fs : FsState) (net : NetEnv) :
    ∀ op ∈ (Main.download_file dir resume e st0 fs net).trace,
      goodOp dir e.file_name op := by
  intro op hop
  unfold Main.download_file at hop
  dsimp only at hop
  repeat' split at hop
  all_goals try (
    simp only [List.mem_singleton, List.mem_cons, List.not_mem_nil, or_false] at hop
    subst hop
    simp [goodOp, DlOp.isStoreOp, DlOp.fsPaths])
  all_goals (
    rcases Main.legacy_resumeStage_ops _ _ _ _ _ _ _ _ op hop with h | h
    · simp only [List.mem_append, List.mem_singleton, List.mem_cons,
        List.not_mem_nil, or_false] at h
      repeat' rcases h with h | h
      all_goals simp_all [goodOp, DlOp.isStoreOp, DlOp.fsPaths]
    · exact h)

/-- Every operation in a retry-loop trace is a request or an access to the
entry's own output/partial files, by induction on the retry budget. -/
theorem Downloader.retryAux_ops (dir : String) (resume : Bool) (retries : Nat)
    (entry : LinkEntry) (net : Nat → NetEnv) :
    ∀ fuel attempt st fs, retries ≤ attempt + fuel →
      ∀ op ∈ (Downloader.retryAux dir resume retries entry net st fs attempt).trace,
        goodOp dir entry.file_name op := by
  intro fuel
  induction fuel with
  | zero =>
    intro attempt st fs hle op hop
    unfold Downloader.retryAux at hop
    dsimp only at hop
    split at hop
    · exact Downloader.download_file_ops _ _ _ _ _ _ op hop
    · split at hop
      · omega
      · exact Downloader.download_file_ops _ _ _ _ _ _ op hop
  | succ k ih =>
    intro attempt st fs hle op hop
    unfold Downloader.retryAux at hop
    dsimp only at hop
    split at hop
    · exact Downloader.download_file_ops _ _ _ _ _ _ op hop
    · split at hop
      · rcases List.mem_append.mp hop with h | h
        · exact Downloader.download_file_ops _ _ _ _ _ _ op h
        · exact ih (attempt + 1) _ _ (by omega) op h
      · exact Downloader.download_file_ops _ _ _ _ _ _ op hop

/-- Every operation in a `download_file_with_retry` trace is a request or an
access to the entry's own output/partial files. -/
theorem Downloader.download_file_with_retry_ops (dir : String) (resume : Bool)
    (retries : Nat) (entry : LinkEntry) (net : Nat → NetEnv) (st : DownloadState)
    (fs : FsState) :
    ∀ op ∈ (Downloader.download_file_with_retry dir resume retries entry net st fs).trace,
      goodOp dir entry.file_name op :=
  fun op hop =>
    Downloader.retryAux_ops dir resume retries entry net retries 1 st fs (by omega) op hop

/-- Every operation in the batch loop's trace belongs to one of the batch's
entries and touches only that entry's files. -/
theorem Downloader.runEntries_ops (dir : String) (resume : Bool) (retries : Nat)
    (net : LinkEntry → Nat → NetEnv) (fss : LinkEntry → FsState) :
    ∀ (entries : List LinkEntry) (states : List DownloadState),
      ∀ op ∈ (Downloader.runEntries dir resume retries net fss entries states).2.2,
        ∃ e ∈ entries, goodOp dir e.file_name op := by
  intro entries
  induction entries with
  | nil => intro states op hop; simp [Downloader.runEntries] at hop
  | cons e rest ih =>
    intro states op hop
    unfold Downloader.runEntries at hop
    dsimp only at hop
    rcases List.mem_append.mp hop with h | h
    · exact ⟨e, by simp, Downloader.download_file_with_retry_ops _ _ _ _ _ _ _ op h⟩
    · obtain ⟨e2, he2, hg⟩ := ih _ op h
      exact ⟨e2, by simp [he2], hg⟩



/-- An operation that is not a store access is in particular not a store
write. -/
theorem DlOp.isSave_eq_false (op : DlOp) (h : op.isStoreOp = false) : op.isSave = false := by
  cases op <;> simp_all [DlOp.isSave, DlOp.isStoreOp]

/-- C10: the single-entry operation never reads from or writes to the
persistent progress store.  `download_single` is by definition the
retry-wrapped transfer started from a fresh `DownloadState.new` (first and
third conjuncts), its operation trace contains no store read or write, and
every file path it touches is the entry's own output or partial path — so the
durable record file is left unchanged and resumption in single mode depends
solely on the partial file on disk.  This holds for the module version (with
retry) and the legacy `main.rs` version (without retry) alike. -/
theorem claim_C10 (dir : String) (resume : Bool) (retries : Nat) (entry : LinkEntry)
    (net : Nat → NetEnv) (net1 : NetEnv) (fs : FsState) :
    Downloader.download_single dir resume retries entry net fs =
      Downloader.download_file_with_retry dir resume retries entry net
        (DownloadState.new entry.file_name) fs ∧
    (∀ op ∈ (Downloader.download_single dir resume retries entry net fs).trace,
      op.isStoreOp = false ∧
      ∀ p ∈ op.fsPaths,
        p = outputPath dir entry.file_name ∨ p = partPath dir entry.file_name) ∧
    Main.download_single dir resume entry net1 fs =
      Main.download_file dir resume entry (DownloadState.new entry.file_name) fs net1 ∧
    (∀ op ∈ (Main.download_single dir resume entry net1 fs).trace,
      op.isStoreOp = false ∧
      ∀ p ∈ op.fsPaths,
        p = outputPath dir entry.file_name ∨ p = partPath dir entry.file_name) := by
  refine ⟨rfl, ?_, rfl, ?_⟩
  · exact fun op hop => Downloader.download_file_with_retry_ops _ _ _ _ _ _ _ op hop
  · exact fun op hop => Main.legacy_download_file_ops _ _ _ _ _ _ op hop

/-- Witness for C10 at a concrete input: the HEAD request in the trace of a
concrete single run is not a store operation and touches no file. -/
theorem claim_C10_witness :
    (DlOp.headReq "u").isStoreOp = false ∧
    ∀ p ∈ (DlOp.headReq "u").fsPaths, p = outputPath "d" "f" ∨ p = partPath "d" "f" := by
  have h := claim_C10 "d" true 3 ⟨"f", "u"⟩ (fun _ => netNone) netNone fsEmpty
  refine h.2.1 (DlOp.headReq "u") ?_
  simp [Downloader.download_single, Downloader.download_file_with_retry,
    Downloader.retryAux, Downloader.download_file, netNone, fsEmpty]

/-- C4 (amended): Save serializes the full in-memory mapping and overwrites
the durable record with a single direct in-place write to the record path
(`fs::write`) — NOT the claimed write-then-replace via a temporary file and
rename (second conjunct) — and in a batch run it is called exactly once,
after all entries finish: the batch trace ends with that store write of the
final store and contains no other store write. -/
theorem claim_C4 :
    (∀ sf sts, StateManager.save_state sf sts = [DlOp.writeFile sf sts]) ∧
    (∀ sf sts, ¬ isWriteThenReplace (StateManager.save_state sf sts) sf) ∧
    (∀ dir resume retries disk entries net fss b,
      Downloader.download_all dir resume retries disk entries net fss = .ok b →
      b.trace.getLast? = some (DlOp.writeFile (statePath dir) b.store) ∧
      ∀ op ∈ b.trace.dropLast, op.isSave = false) := by
  refine ⟨fun _ _ => rfl, ?_, ?_⟩
  · intro sf sts
    rintro ⟨tmp, content, hne, h⟩
    simp [StateManager.save_state] at h
  · intro dir resume retries disk entries net fss b h
    unfold Downloader.download_all at h
    cases hload : StateManager.load_state disk with
    | error e => rw [hload] at h; simp at h
    | ok store0 =>
      rw [hload] at h
      dsimp only at h
      rw [Except.ok.injEq] at h
      subst h
      dsimp only
      constructor
      · rw [StateManager.save_state, List.getLast?_concat]
      · intro op hop
        rw [StateManager.save_state, List.dropLast_concat] at hop
        rcases List.mem_append.mp hop with hmem | hmem
        · split at hmem
          · simp at hmem
          · simp only [List.mem_singleton] at hmem
            subst hmem
            rfl
        · obtain ⟨e2, _, hg, _⟩ :=
            Downloader.runEntries_ops dir resume retries net fss entries store0 op hmem
          exact DlOp.isSave_eq_false op hg

/-- Witness for C4 at a concrete input: a one-entry batch whose trace ends in
the single store write. -/
theorem claim_C4_witness :
    ∃ b, Downloader.download_all "d" true 1 none [⟨"f", "u"⟩] (fun _ _ => netNone)
        (fun _ => fsEmpty) = .ok b ∧
      b.trace.getLast? = some (DlOp.writeFile (statePath "d") b.store) ∧
      ∀ op ∈ b.trace.dropLast, op.isSave = false := by
  have heq : Downloader.download_all "d" true 1 none [⟨"f", "u"⟩] (fun _ _ => netNone)
      (fun _ => fsEmpty) =
      .ok { store := [], results := [.err .headFailed], succeeded := 0, failed := 1,
            trace := [DlOp.headReq "u", DlOp.writeFile "d/.download_state.json" []] } := by
    simp [Downloader.download_all, StateManager.load_state, Downloader.runEntries,
      Downloader.download_file_with_retry, Downloader.retryAux, Downloader.download_file,
      Downloader.updateStates, Downloader.findState, StateManager.save_state, statePath,
      netNone, fsEmpty, DlRes.isOk, DlRes.isErr]
  exact ⟨_, heq, (claim_C4.2.2 "d" true 1 none [⟨"f", "u"⟩] (fun _ _ => netNone)
    (fun _ => fsEmpty) _ heq).1, (claim_C4.2.2 "d" true 1 none [⟨"f", "u"⟩]
    (fun _ _ => netNone) (fun _ => fsEmpty) _ heq).2⟩



/-- Merging a state into the store preserves every name already present. -/
theorem Downloader.mergeFirst_names (st : DownloadState) :
    ∀ (states : List DownloadState) (s : DownloadState), s ∈ states →
      ∃ t ∈ Downloader.mergeFirst states st, t.file_name = s.file_name := by
  intro states
  induction states with
  | nil => intro s hs; simp at hs
  | cons a rest ih =>
    intro s hs
    unfold Downloader.mergeFirst
    rcases List.mem_cons.mp hs with h | h
    · subst h
      split
      · rename_i hname
        exact ⟨st, by simp, by simpa using (beq_iff_eq.mp hname).symm⟩
      · exact ⟨s, by simp, rfl⟩
    · split
      · exact ⟨s, by simp [h], rfl⟩
      · obtain ⟨t, ht, hname⟩ := ih s h
        exact ⟨t, by simp [ht], hname⟩

/-- After a merge, the merged state's name is present in the store. -/
theorem Downloader.mergeFirst_self (st : DownloadState) :
    ∀ states : List DownloadState,
      ∃ t ∈ Downloader.mergeFirst states st, t.file_name = st.file_name := by
  intro states
  induction states with
  | nil => exact ⟨st, by simp [Downloader.mergeFirst], rfl⟩
  | cons a rest ih =>
    unfold Downloader.mergeFirst
    split
    · exact ⟨st, by simp, rfl⟩
    · obtain ⟨t, ht, hname⟩ := ih
      exact ⟨t, by simp [ht], hname⟩

/-- The module store update preserves every name already present, whether or
not the transfer succeeded. -/
theorem Downloader.updateStates_names (states : List DownloadState) (resOk : Bool)
    (st : DownloadState) (s : DownloadState) (hs : s ∈ states) :
    ∃ t ∈ Downloader.updateStates states resOk st, t.file_name = s.file_name := by
  unfold Downloader.updateStates
  split
  · exact Downloader.mergeFirst_names st states s hs
  · exact ⟨s, hs, rfl⟩

/-- The batch loop never deletes an entry from the store: every name present
at the start is present at the end, by induction over the entries. -/
theorem Downloader.runEntries_names (dir : String) (resume : Bool) (retries : Nat)
    (net : LinkEntry → Nat → NetEnv) (fss : LinkEntry → FsState) :
    ∀ (entries : List LinkEntry) (states : List DownloadState) (s : DownloadState),
      s ∈ states →
      ∃ t ∈ (Downloader.runEntries dir resume retries net fss entries states).1,
        t.file_name = s.file_name := by
  intro entries
  induction entries with
  | nil => intro states s hs; exact ⟨s, hs, rfl⟩
  | cons e rest ih =>
    intro states s hs
    unfold Downloader.runEntries
    dsimp only
    obtain ⟨t, ht, hname⟩ := Downloader.updateStates_names states _ _ s hs
    obtain ⟨t2, ht2, hname2⟩ := ih _ t ht
    exact ⟨t2, ht2, hname2.trans hname⟩

/-- C8 (amended): in the module batch runner an entry's final
TransferProgress is merged into the shared store ONLY when its transfer
succeeds — on failure the store is left unchanged for that entry (first
conjunct) — while the legacy `main.rs` runner merges on success and failure
alike (second conjunct); in both, no entry is ever deleted from the store
during a run: every name present when the batch starts is still present at
the end (third conjunct). -/
theorem claim_C8 :
    (∀ states st, Downloader.updateStates states false st = states) ∧
    (∀ states st, ∃ t ∈ Main.updateStates states st, t.file_name = st.file_name) ∧
    (∀ dir resume retries net fss entries states s, s ∈ states →
      ∃ t ∈ (Downloader.runEntries dir resume retries net fss entries states).1,
        t.file_name = s.file_name) := by
  refine ⟨fun _ _ => rfl, ?_, ?_⟩
  · intro states st
    exact Downloader.mergeFirst_self st states
  · intro dir resume retries net fss entries states s hs
    exact Downloader.runEntries_names dir resume retries net fss entries states s hs

/-- Witness for C8 at a concrete input: a prior store entry survives a batch
whose only transfer fails. -/
theorem claim_C8_witness :
    ∃ t ∈ (Downloader.runEntries "d" true 1 (fun _ _ => netNone) (fun _ => fsEmpty)
        [⟨"f", "u"⟩] [DownloadState.new "g"]).1, t.file_name = (DownloadState.new "g").file_name := by
  exact claim_C8.2.2 "d" true 1 (fun _ _ => netNone) (fun _ => fsEmpty)
    [⟨"f", "u"⟩] [DownloadState.new "g"] (DownloadState.new "g") (by simp)

/-- C3 (amended): the progress store's Load returns an empty mapping when
the durable record is absent, and the parsed mapping when it parses; but a
record that exists and is unreadable or unparsable is an ERROR (propagated
with `?` by the batch runner), not an empty mapping; and the resume flag is
honored only by the legacy `main.rs` loader (absent or resume-disabled ⇒
empty) — the module `StateManager::load_state` has no resume parameter, and
the module batch runner loads whatever is on disk even with resume disabled
(last conjunct holds for every value of `resume`). -/
theorem claim_C3 :
    StateManager.load_state none = .ok [] ∧
    StateManager.load_state (some none) = .error .readFailed ∧
    (∀ sts, StateManager.load_state (some (some sts)) = .ok sts) ∧
    (∀ resume disk, Main.load_state resume disk =
      if disk = none ∨ resume = false then .ok [] else StateManager.load_state disk) ∧
    (∀ dir resume retries disk net fss sts, StateManager.load_state disk = .ok sts →
      Downloader.download_all dir resume retries disk [] net fss =
        .ok { store := sts, results := [], succeeded := 0, failed := 0,
              trace := (if disk = none then [] else [DlOp.readFile (statePath dir)]) ++
                       [DlOp.writeFile (statePath dir) sts] }) := by
  refine ⟨rfl, rfl, fun _ => rfl, ?_, ?_⟩
  · intro resume disk
    rcases disk with _ | d
    · simp [Main.load_state]
    · rcases d with _ | sts <;> cases resume <;>
        simp [Main.load_state, StateManager.load_state]
  · intro dir resume retries disk net fss sts h
    unfold Downloader.download_all
    rw [h]
    simp [Downloader.runEntries, StateManager.save_state]

/-- Witness for C3 at concrete inputs: the legacy loader with resume
disabled returns empty despite a record on disk, and a module batch run with
resume disabled still starts from the loaded (here absent ⇒ empty) record. -/
theorem claim_C3_witness :
    Main.load_state false (some (some [DownloadState.new "a"])) = .ok [] ∧
    Downloader.download_all "d" false 3 none [] (fun _ _ => netNone) (fun _ => fsEmpty) =
      .ok { store := [], results := [], succeeded := 0, failed := 0,
            trace := [DlOp.writeFile (statePath "d") []] } := by
  constructor
  · rw [claim_C3.2.2.2.1 false (some (some [DownloadState.new "a"]))]
    simp
  · have h := claim_C3.2.2.2.2 "d" false 3 none (fun _ _ => netNone) (fun _ => fsEmpty) [] rfl
    simpa using h



/-- When no output file exists and any known expected size strictly exceeds
the resume offset, the module state machine reduces to its fetch stage with
`total_bytes` recorded in the state. -/
theorem Downloader.reach_fetch (dir : String) (resume : Bool) (e : LinkEntry)
    (st : DownloadState) (fs : FsState) (net : NetEnv) (tb : Option Nat)
    (hhead : net.head = some tb) (hout : fs.outputExists = false)
    (hcpos : ∀ t, tb = some t →
      (if resume = true ∧ fs.partExists = true then fs.partSize else 0) < t) :
    Downloader.download_file dir resume e st fs net =
      Downloader.fetchStage dir e { st with total_bytes := tb } fs [DlOp.headReq e.url] tb
        (if resume = true ∧ fs.partExists = true then fs.partSize else 0) net := by
  unfold Downloader.download_file Downloader.resumeStage
  rw [hhead]
  try dsimp only
  rw [if_neg (by simp [hout])]
  rcases tb with _ | t
  · rfl
  · have ht := hcpos t rfl
    try dsimp only
    rw [if_neg (by omega :
      ¬ (0 < (if resume = true ∧ fs.partExists = true then fs.partSize else 0) ∧
        t < (if resume = true ∧ fs.partExists = true then fs.partSize else 0)))]
    rw [if_neg (by omega :
      ¬ t ≤ (if resume = true ∧ fs.partExists = true then fs.partSize else 0))]

/-- When no output file exists and any known expected size strictly exceeds
the resume offset, the legacy state machine reduces to its fetch stage with
`total_bytes` recorded in the state. -/
theorem Main.legacy_reach_fetch (dir : String) (resume : Bool) (e : LinkEntry)
    (st : DownloadState) (fs : FsState) (net : NetEnv) (tb : Option Nat)
    (hhead : net.head = some tb) (hout : fs.outputExists = false)
    (hcpos : ∀ t, tb = some t →
      (if resume = true ∧ fs.partExists = true then fs.partSize else 0) < t) :
    Main.download_file dir resume e st fs net =
      Main.fetchStage dir e { st with total_bytes := tb } fs [DlOp.headReq e.url] tb
        (if resume = true ∧ fs.partExists = true then fs.partSize else 0) net := by
  unfold Main.download_file Main.resumeStage
  rw [hhead]
  try dsimp only
  rw [if_neg (by simp [hout])]
  rcases tb with _ | t
  · rfl
  · have ht := hcpos t rfl
    try dsimp only
    rw [if_neg (by omega :
      ¬ (0 < (if resume = true ∧ fs.partExists = true then fs.partSize else 0) ∧
        t < (if resume = true ∧ fs.partExists = true then fs.partSize else 0)))]
    rw [if_neg (by omega :
      ¬ t ≤ (if resume = true ∧ fs.partExists = true then fs.partSize else 0))]

/-- When the GET succeeds with a success status and the stream terminates,
the module fetch stage records `completed = finalizeValidB`, returns `ok`
exactly when valid (`sizeMismatch` otherwise), and records the actual on-disk
size in `downloaded_bytes`. -/
theorem Downloader.fetchStage_finalize (dir : String) (e : LinkEntry)
    (st1 : DownloadState) (fs : FsState) (tr : List DlOp) (tb : Option Nat)
    (cpos : Nat) (net : NetEnv) (g : GetResp)
    (hget : net.get = some g)
    (hstatus : 200 ≤ g.status ∧ g.status < 300)
    (hterm : (consumeChunks g.chunks).2 = true ∨ g.clean = true) :
    (Downloader.fetchStage dir e st1 fs tr tb cpos net).st.completed =
      finalizeValidB tb (fetchActual fs g) ∧
    (Downloader.fetchStage dir e st1 fs tr tb cpos net).res =
      (if finalizeValidB tb (fetchActual fs g) = true then .ok
       else .err (.sizeMismatch (tb.getD 0) (fetchActual fs g))) ∧
    (Downloader.fetchStage dir e st1 fs tr tb cpos net).st.downloaded_bytes =
      fetchActual fs g := by
  unfold Downloader.fetchStage
  rw [hget]
  try dsimp only
  rw [if_neg (by omega : ¬ ((¬ (200 ≤ g.status ∧ g.status < 300)) ∧ g.status ≠ 206))]
  rw [if_neg (by rcases hterm with h | h <;> simp [h] :
    ¬ ((consumeChunks g.chunks).2 = false ∧ g.clean = false))]
  simp only [fetchActual, finalizeValidB]
  split_ifs <;> simp_all

/-- When the GET succeeds with a success status and the stream terminates,
the legacy fetch stage records `completed = true` UNCONDITIONALLY and the
actual on-disk size in `downloaded_bytes`. -/
theorem Main.legacy_fetchStage_finalize (dir : String) (e : LinkEntry)
    (st1 : DownloadState) (fs : FsState) (tr : List DlOp) (tb : Option Nat)
    (cpos : Nat) (net : NetEnv) (g : GetResp)
    (hget : net.get = some g)
    (hstatus : 200 ≤ g.status ∧ g.status < 300)
    (hterm : (consumeChunks g.chunks).2 = true ∨ g.clean = true) :
    (Main.fetchStage dir e st1 fs tr tb cpos net).st.completed = true ∧
    (Main.fetchStage dir e st1 fs tr tb cpos net).st.downloaded_bytes =
      fetchActual fs g := by
  unfold Main.fetchStage
  rw [hget]
  try dsimp only
  rw [if_neg (by omega : ¬ ((¬ (200 ≤ g.status ∧ g.status < 300)) ∧ g.status ≠ 206))]
  rw [if_neg (by rcases hterm with h | h <;> simp [h] :
    ¬ ((consumeChunks g.chunks).2 = false ∧ g.clean = false))]
  simp only [fetchActual]
  split_ifs <;> simp_all

/-- On inputs where the known expected size is positive (which is forced on
every path that reaches the fetch stage), the Bool the module Finalize
computes coincides with the claim's validity predicate. -/
theorem finalizeValidB_iff_spec (tb : Option Nat) (actual : Nat)
    (h : ∀ t, tb = some t → 0 < t) :
    finalizeValidB tb actual = true ↔ specFinalizeValid tb actual := by
  rcases tb with _ | t
  · simp [finalizeValidB, specFinalizeValid]
  · have ht := h t rfl
    simp [finalizeValidB, specFinalizeValid, ht]

/-- C5 (amended): in the MODULE state machine the claim holds as stated —
a valid existing output (size equal to the known expected size, or unknown
size and non-empty) is skipped: success, `completed := true`, the file system
untouched, and the trace is the HEAD request alone, so no fetch is issued
(first conjunct); an invalid existing output is deleted and the run proceeds
to a fresh transfer: the trace contains the `remove_file` of the output and a
GET request (second conjunct).  In the LEGACY `main.rs` state machine the
mismatch case differs: the file is NOT deleted, no fetch is issued, the entry
is recorded `completed = true`, and the attempt fails with an
existing-size-mismatch error (third conjunct). -/
theorem claim_C5 :
    (∀ dir resume e st fs net tb, net.head = some tb → fs.outputExists = true →
      (tb = some fs.outputSize ∨ (tb = none ∧ 0 < fs.outputSize)) →
      Downloader.download_file dir resume e st fs net =
        { res := .ok, st := { st with completed := true, downloaded_bytes := fs.outputSize },
          fs := fs, trace := [DlOp.headReq e.url] }) ∧
    (∀ dir resume e st fs net t, net.head = some (some t) → fs.outputExists = true →
      fs.outputSize ≠ t →
      (if resume = true ∧ fs.partExists = true then fs.partSize else 0) < t →
      DlOp.removeFile (outputPath dir e.file_name) ∈
        (Downloader.download_file dir resume e st fs net).trace ∧
      DlOp.getReq e.url
          (if 0 < (if resume = true ∧ fs.partExists = true then fs.partSize else 0)
           then some (if resume = true ∧ fs.partExists = true then fs.partSize else 0)
           else none) ∈
        (Downloader.download_file dir resume e st fs net).trace) ∧
    (∀ dir resume e st fs net t, net.head = some (some t) → fs.outputExists = true →
      fs.outputSize ≠ t →
      Main.download_file dir resume e st fs net =
        { res := .err (.existingMismatch t fs.outputSize),
          st := { st with completed := true, downloaded_bytes := fs.outputSize },
          fs := fs, trace := [DlOp.headReq e.url] }) := by
  refine ⟨?_, ?_, ?_⟩
  · intro dir resume e st fs net tb hhead hout hvalid
    unfold Downloader.download_file
    rw [hhead]
    try dsimp only
    rw [if_pos hout]
    rcases hvalid with h | ⟨h, hpos⟩ <;> subst h
    · simp
    · simp [hpos]
  · intro dir resume e st fs net t hhead hout hmis hcpos
    unfold Downloader.download_file Downloader.resumeStage Downloader.fetchStage
    rw [hhead]
    try dsimp only
    rw [if_pos hout]
    rw [if_neg (by simpa using hmis)]
    try dsimp only
    rw [if_neg (by omega :
      ¬ (0 < (if resume = true ∧ fs.partExists = true then fs.partSize else 0) ∧
        t < (if resume = true ∧ fs.partExists = true then fs.partSize else 0)))]
    rw [if_neg (by omega :
      ¬ t ≤ (if resume = true ∧ fs.partExists = true then fs.partSize else 0))]
    rcases net.get with _ | g
    · constructor <;> simp
    · try dsimp only
      split_ifs <;> constructor <;> simp
  · intro dir resume e st fs net t hhead hout hmis
    unfold Main.download_file
    rw [hhead]
    try dsimp only
    rw [if_pos hout]
    rw [if_neg (by simpa using hmis)]
    rfl

/-- Witness for C5 at concrete inputs, one per conjunct. -/
theorem claim_C5_witness :
    Downloader.download_file "d" true ⟨"f", "u"⟩ (DownloadState.new "f")
        { outputExists := true, outputSize := 10, partExists := false, partSize := 0 }
        { head := some (some 10), get := none } =
      { res := .ok,
        st := { file_name := "f", downloaded_bytes := 10, total_bytes := none,
                completed := true },
        fs := { outputExists := true, outputSize := 10, partExists := false, partSize := 0 },
        trace := [DlOp.headReq "u"] } ∧
    DlOp.removeFile (outputPath "d" "f") ∈
      (Downloader.download_file "d" true ⟨"f", "u"⟩ (DownloadState.new "f")
        { outputExists := true, outputSize := 5, partExists := false, partSize := 0 }
        { head := some (some 10),
          get := some { status := 200, chunks := [10], clean := true } }).trace ∧
    Main.download_file "d" true ⟨"f", "u"⟩ (DownloadState.new "f")
        { outputExists := true, outputSize := 5, partExists := false, partSize := 0 }
        { head := some (some 10), get := none } =
      { res := .err (.existingMismatch 10 5),
        st := { file_name := "f", downloaded_bytes := 5, total_bytes := none,
                completed := true },
        fs := { outputExists := true, outputSize := 5, partExists := false, partSize := 0 },
        trace := [DlOp.headReq "u"] } := by
  refine ⟨?_, ?_, ?_⟩
  · exact claim_C5.1 "d" true ⟨"f", "u"⟩ (DownloadState.new "f")
      { outputExists := true, outputSize := 10, partExists := false, partSize := 0 }
      { head := some (some 10), get := none } (some 10) rfl rfl (by simp)
  · exact (claim_C5.2.1 "d" true ⟨"f", "u"⟩ (DownloadState.new "f")
      { outputExists := true, outputSize := 5, partExists := false, partSize := 0 }
      { head := some (some 10),
        get := some { status := 200, chunks := [10], clean := true } } 10
      rfl rfl (by decide) (by simp)).1
  · exact claim_C5.2.2 "d" true ⟨"f", "u"⟩ (DownloadState.new "f")
      { outputExists := true, outputSize := 5, partExists := false, partSize := 0 }
      { head := some (some 10), get := none } 10 rfl rfl (by decide)

/-- C6 (amended): in the MODULE Finalize the claim holds as stated: after
the rename, `completed = true` exactly when the expected size is known and
positive and the actual size equals it, or the size is unknown and the actual
size exceeds the 1024-byte sanity threshold; success is returned exactly in
the valid case and an invalid result fails the attempt with `sizeMismatch`
(first conjunct).  The LEGACY `main.rs` Finalize instead records
`completed = true` unconditionally (second conjunct) — and when the expected
size is unknown it accepts any actual size with no threshold (its validity
Bool has `else true` in place of `else actual > 1024`). -/
theorem claim_C6 :
    (∀ dir resume e st fs net tb g,
      net.head = some tb → fs.outputExists = false →
      (∀ t, tb = some t →
        (if resume = true ∧ fs.partExists = true then fs.partSize else 0) < t) →
      net.get = some g → 200 ≤ g.status ∧ g.status < 300 →
      ((consumeChunks g.chunks).2 = true ∨ g.clean = true) →
      ((Downloader.download_file dir resume e st fs net).st.completed = true ↔
        specFinalizeValid tb (fetchActual fs g)) ∧
      ((Downloader.download_file dir resume e st fs net).res = .ok ↔
        specFinalizeValid tb (fetchActual fs g)) ∧
      (¬ specFinalizeValid tb (fetchActual fs g) →
        (Downloader.download_file dir resume e st fs net).res =
          .err (.sizeMismatch (tb.getD 0) (fetchActual fs g))) ∧
      (Downloader.download_file dir resume e st fs net).st.downloaded_bytes =
        fetchActual fs g) ∧
    (∀ dir resume e st fs net tb g,
      net.head = some tb → fs.outputExists = false →
      (∀ t, tb = some t →
        (if resume = true ∧ fs.partExists = true then fs.partSize else 0) < t) →
      net.get = some g → 200 ≤ g.status ∧ g.status < 300 →
      ((consumeChunks g.chunks).2 = true ∨ g.clean = true) →
      (Main.download_file dir resume e st fs net).st.completed = true) := by
  constructor
  · intro dir resume e st fs net tb g hhead hout hcpos hget hstatus hterm
    have hreach := Downloader.reach_fetch dir resume e st fs net tb hhead hout hcpos
    obtain ⟨hc, hr, hd⟩ := Downloader.fetchStage_finalize dir e { st with total_bytes := tb }
      fs [DlOp.headReq e.url] tb
      (if resume = true ∧ fs.partExists = true then fs.partSize else 0) net g
      hget hstatus hterm
    have hpos : ∀ t, tb = some t → 0 < t := by
      intro t ht
      have := hcpos t ht
      omega
    have hiff := finalizeValidB_iff_spec tb (fetchActual fs g) hpos
    rw [hreach]
    refine ⟨by rw [hc]; exact hiff, ?_, ?_, hd⟩
    · rw [hr]
      constructor
      · intro hok
        split_ifs at hok with hv
        exact hiff.mp hv
      · intro hs
        rw [if_pos (hiff.mpr hs)]
    · intro hns
      rw [hr, if_neg (fun hb => hns (hiff.mp hb))]
  · intro dir resume e st fs net tb g hhead hout hcpos hget hstatus hterm
    have hreach := Main.legacy_reach_fetch dir resume e st fs net tb hhead hout hcpos
    obtain ⟨hc, hd⟩ := Main.legacy_fetchStage_finalize dir e { st with total_bytes := tb }
      fs [DlOp.headReq e.url] tb
      (if resume = true ∧ fs.partExists = true then fs.partSize else 0) net g
      hget hstatus hterm
    rw [hreach]
    exact hc

/-- Witness for C6 at concrete inputs: a valid module transfer and a legacy
transfer, hypotheses discharged by evaluation. -/
theorem claim_C6_witness :
    ((Downloader.download_file "d" true ⟨"f", "u"⟩ (DownloadState.new "f") fsEmpty
        { head := some (some 10),
          get := some { status := 200, chunks := [10], clean := true } }).st.completed = true ↔
      specFinalizeValid (some 10)
        (fetchActual fsEmpty { status := 200, chunks := [10], clean := true })) ∧
    (Main.download_file "d" true ⟨"f", "u"⟩ (DownloadState.new "f") fsEmpty
        { head := some (some 10),
          get := some { status := 200, chunks := [5], clean := true } }).st.completed = true := by
  constructor
  · exact (claim_C6.1 "d" true ⟨"f", "u"⟩ (DownloadState.new "f") fsEmpty
      { head := some (some 10), get := some { status := 200, chunks := [10], clean := true } }
      (some 10) { status := 200, chunks := [10], clean := true }
      rfl rfl (by intro t ht; simp [fsEmpty] at ht ⊢; omega) rfl (by decide) (by decide)).1
  · exact claim_C6.2 "d" true ⟨"f", "u"⟩ (DownloadState.new "f") fsEmpty
      { head := some (some 10), get := some { status := 200, chunks := [5], clean := true } }
      (some 10) { status := 200, chunks := [5], clean := true }
      rfl rfl (by intro t ht; simp [fsEmpty] at ht ⊢; omega) rfl (by decide) (by decide)

/-- C7 (amended): provided resume is enabled (the partial file's length is
the resume offset only then) and no valid completed output short-circuits the
attempt at Reconcile, a partial file strictly longer than the known expected
total makes the module state machine fail immediately with the
partial-exceeds-total error: no GET request and no append is issued, and the
partial file is neither truncated nor restarted — it is still present with
its original length. -/
theorem claim_C7 (dir : String) (e : LinkEntry) (st : DownloadState) (fs : FsState)
    (net : NetEnv) (t : Nat)
    (hhead : net.head = some (some t))
    (hpart : fs.partExists = true)
    (hgt : t < fs.partSize)
    (hout : fs.outputExists = true → fs.outputSize ≠ t) :
    (Downloader.download_file dir true e st fs net).res =
      .err (.partExceedsTotal fs.partSize t) ∧
    (∀ u r, DlOp.getReq u r ∉ (Downloader.download_file dir true e st fs net).trace) ∧
    (∀ p n, DlOp.appendFile p n ∉ (Downloader.download_file dir true e st fs net).trace) ∧
    (Downloader.download_file dir true e st fs net).fs.partExists = true ∧
    (Downloader.download_file dir true e st fs net).fs.partSize = fs.partSize := by
  have key : Downloader.download_file dir true e st fs net =
      if fs.outputExists then
        { res := .err (.partExceedsTotal fs.partSize t), st := st,
          fs := { fs with outputExists := false, outputSize := 0 },
          trace := [DlOp.headReq e.url, DlOp.removeFile (outputPath dir e.file_name)] }
      else
        { res := .err (.partExceedsTotal fs.partSize t), st := st, fs := fs,
          trace := [DlOp.headReq e.url] } := by
    unfold Downloader.download_file Downloader.resumeStage
    rw [hhead]
    try dsimp only
    split_ifs <;> simp_all
  rw [key]
  split_ifs with hoe <;>
    refine ⟨rfl, ?_, ?_, hpart, rfl⟩ <;> intro a b <;> simp

/-- Witness for C7 at a concrete input: partial of 20 bytes against an
expected total of 10. -/
theorem claim_C7_witness :
    (Downloader.download_file "d" true ⟨"f", "u"⟩ (DownloadState.new "f")
        { outputExists := false, outputSize := 0, partExists := true, partSize := 20 }
        { head := some (some 10), get := none }).res =
      .err (.partExceedsTotal 20 10) ∧
    (Downloader.download_file "d" true ⟨"f", "u"⟩ (DownloadState.new "f")
        { outputExists := false, outputSize := 0, partExists := true, partSize := 20 }
        { head := some (some 10), get := none }).fs.partSize = 20 := by
  have h := claim_C7 "d" ⟨"f", "u"⟩ (DownloadState.new "f")
    { outputExists := false, outputSize := 0, partExists := true, partSize := 20 }
    { head := some (some 10), get := none } 10 rfl rfl (by decide) (by simp)
  exact ⟨h.1, h.2.2.2.2⟩


end SA1B
